import Mathlib

/-!
Verification of the graph-construction and interaction core abstracted from
`src/pages/ModelOfInterest/GraphDisplay/index.tsx` of the BeSLighthouse
repository.

The component fetches a JSON array of `{name, dependencies[]}` records,
builds a node set and a link list, runs a d3 force simulation and reacts to
drag/click events.  The pure data transformations are embedded here as Lean
functions; the JavaScript `Set` is modelled as an insertion-ordered
duplicate-free list, JS `undefined` as `Option.none`, and thrown exceptions
as `Except.error`.
-/

/-- A well-formed input record, per the declared input shape
`{ name: string, dependencies: string[] }`. -/
structure Record where
  name : String
  dependencies : List String
deriving DecidableEq, Repr

/-- A graph node, after `interface Node` in the source:
`{ name, color, model_url, isDependency }` (positions are owned by the
simulation and modelled separately). -/
structure GNode where
  name : String
  color : String
  model_url : Option String
  isDependency : Bool
deriving DecidableEq, Repr

/-- A link `{ source, target }`, both node names, after `interface Link`. -/
structure GLink where
  source : String
  target : String
deriving DecidableEq, Repr

/-- The output of the graph builder: the `nodes` array and the `links`
array as they stand when handed to the d3 simulation. -/
structure Graph where
  nodes : List GNode
  links : List GLink
deriving DecidableEq, Repr

/-- Model of `Set.add`: a JS `Set` keeps insertion order and ignores duplicates. -/
def insertUniq (s : List String) (x : String) : List String :=
  if x ∈ s then s else s ++ [x]

/-- The first `data.forEach` pass of the source:
`nodesSet.add(item.name); item.dependencies.forEach(dep => nodesSet.add(dep))`. -/
def nodesSet (data : List Record) : List String :=
  data.foldl (fun s item => item.dependencies.foldl insertUniq (insertUniq s item.name)) []

/-- Model of `getModelUrl` of the source: `data.find(item => item.name === nodeName)`
then `url + nodeName` when found, `null` otherwise, with
`url = "/BeSLighthouse/model_report"`. -/
def getModelUrl (data : List Record) (nodeName : String) : Option String :=
  match data.find? (fun item => item.name == nodeName) with
  | some _ => some ("/BeSLighthouse/model_report" ++ nodeName)
  | none => none

/-- Model of `nodes.find(node => node.name === dep)` followed by the in-place
`depNode.isDependency = true`: mutate the first node whose name matches. -/
def markFirst : List GNode → String → List GNode
  | [], _ => []
  | n :: ns, dep =>
      if n.name = dep then { n with isDependency := true } :: ns
      else n :: markFirst ns dep

/-- One iteration of the inner `forEach` of the link-building pass:
`links.push({source, target})` and the `isDependency` marking. -/
def addLink (st : List GLink × List GNode) (src dep : String) : List GLink × List GNode :=
  (st.1 ++ [⟨src, dep⟩], markFirst st.2 dep)

/-- The full pure graph construction of the source component: build the
deduplicated name set, map it to node objects (`color`, `model_url`,
`isDependency:false`), then traverse all `(record.name, dependency)` pairs
pushing links and marking dependency targets. -/
def graphBuilder (data : List Record) : Graph :=
  let nodes0 : List GNode :=
    (nodesSet data).map fun name =>
      { name := name, color := "#0077cc", model_url := getModelUrl data name,
        isDependency := false }
  let st := data.foldl
    (fun st item => item.dependencies.foldl (fun st dep => addLink st item.name dep) st)
    ([], nodes0)
  { nodes := st.2, links := st.1 }

/-- All names occurring in the input, record names and dependency entries
alike, in source-traversal order with duplicates. -/
def inputNames (data : List Record) : List String :=
  data.flatMap fun item => item.name :: item.dependencies

/-- All dependency entries of the input, in traversal order. -/
def depsList (data : List Record) : List String :=
  data.flatMap fun item => item.dependencies

/-- The links the source pushes: one per `(record.name, dependency)` pair. -/
def linksList (data : List Record) : List GLink :=
  data.flatMap fun item => item.dependencies.map fun dep => ⟨item.name, dep⟩

example :
    graphBuilder [⟨"A", ["B"]⟩, ⟨"B", []⟩] =
      { nodes := [⟨"A", "#0077cc", some "/BeSLighthouse/model_reportA", false⟩,
                  ⟨"B", "#0077cc", some "/BeSLighthouse/model_reportB", true⟩],
        links := [⟨"A", "B"⟩] } := by decide

example :
    graphBuilder [⟨"A", ["C", "C"]⟩] =
      { nodes := [⟨"A", "#0077cc", some "/BeSLighthouse/model_reportA", false⟩,
                  ⟨"C", "#0077cc", none, true⟩],
        links := [⟨"A", "C"⟩, ⟨"A", "C"⟩] } := by decide

/-! ### Basic lemmas about the set model and the construction folds -/

theorem mem_insertUniq (s : List String) (x a : String) :
    a ∈ insertUniq s x ↔ a ∈ s ∨ a = x := by
  unfold insertUniq
  split
  · rename_i hx
    constructor
    · exact Or.inl
    · rintro (h | rfl)
      · exact h
      · exact hx
  · simp [List.mem_append]

theorem nodup_insertUniq (s : List String) (x : String) (h : s.Nodup) :
    (insertUniq s x).Nodup := by
  unfold insertUniq
  split
  · exact h
  · rename_i hx
    simpa [List.nodup_append, h] using hx

theorem mem_foldl_insertUniq (l : List String) (s : List String) (a : String) :
    a ∈ l.foldl insertUniq s ↔ a ∈ s ∨ a ∈ l := by
  induction l generalizing s with
  | nil => simp
  | cons d l ih =>
    rw [List.foldl_cons, ih, mem_insertUniq]
    simp only [List.mem_cons]
    tauto

theorem nodup_foldl_insertUniq (l : List String) (s : List String) (h : s.Nodup) :
    (l.foldl insertUniq s).Nodup := by
  induction l generalizing s with
  | nil => exact h
  | cons d l ih => exact ih _ (nodup_insertUniq _ _ h)

theorem inputNames_cons (r : Record) (rest : List Record) :
    inputNames (r :: rest) = r.name :: (r.dependencies ++ inputNames rest) := by
  simp [inputNames]

theorem depsList_cons (r : Record) (rest : List Record) :
    depsList (r :: rest) = r.dependencies ++ depsList rest := by
  simp [depsList]

theorem linksList_cons (r : Record) (rest : List Record) :
    linksList (r :: rest) =
      (r.dependencies.map fun dep => ⟨r.name, dep⟩) ++ linksList rest := by
  simp [linksList]

theorem mem_nodesSet_aux (data : List Record) (s : List String) (a : String) :
    a ∈ data.foldl
        (fun s item => item.dependencies.foldl insertUniq (insertUniq s item.name)) s ↔
      a ∈ s ∨ a ∈ inputNames data := by
  induction data generalizing s with
  | nil => simp [inputNames]
  | cons r rest ih =>
    rw [List.foldl_cons, ih, mem_foldl_insertUniq, mem_insertUniq, inputNames_cons]
    simp only [List.mem_cons, List.mem_append]
    tauto

theorem mem_nodesSet (data : List Record) (a : String) :
    a ∈ nodesSet data ↔ a ∈ inputNames data := by
  rw [nodesSet, mem_nodesSet_aux]
  simp

theorem nodup_nodesSet_aux (data : List Record) (s : List String) (h : s.Nodup) :
    (data.foldl
      (fun s item => item.dependencies.foldl insertUniq (insertUniq s item.name)) s).Nodup := by
  induction data generalizing s with
  | nil => exact h
  | cons r rest ih => exact ih _ (nodup_foldl_insertUniq _ _ (nodup_insertUniq _ _ h))

theorem nodup_nodesSet (data : List Record) : (nodesSet data).Nodup :=
  nodup_nodesSet_aux data [] List.nodup_nil

theorem foldl_addLink_inner (deps : List String) (src : String)
    (ls : List GLink) (ns : List GNode) :
    deps.foldl (fun st dep => addLink st src dep) (ls, ns) =
      (ls ++ deps.map (fun dep => ⟨src, dep⟩), deps.foldl markFirst ns) := by
  induction deps generalizing ls ns with
  | nil => simp
  | cons d deps ih =>
    rw [List.foldl_cons, List.foldl_cons]
    show deps.foldl (fun st dep => addLink st src dep) (ls ++ [⟨src, d⟩], markFirst ns d) = _
    rw [ih]
    simp

theorem foldl_addLink_outer (data : List Record) (ls : List GLink) (ns : List GNode) :
    data.foldl
        (fun st item => item.dependencies.foldl (fun st dep => addLink st item.name dep) st)
        (ls, ns) =
      (ls ++ linksList data, (depsList data).foldl markFirst ns) := by
  induction data generalizing ls ns with
  | nil => simp [linksList, depsList]
  | cons r rest ih =>
    rw [List.foldl_cons]
    show rest.foldl _ (r.dependencies.foldl (fun st dep => addLink st r.name dep) (ls, ns)) = _
    rw [foldl_addLink_inner, ih, linksList_cons, depsList_cons, List.foldl_append]
    simp

theorem markFirst_map_name (ns : List GNode) (dep : String) :
    (markFirst ns dep).map GNode.name = ns.map GNode.name := by
  induction ns with
  | nil => rfl
  | cons n ns ih =>
    rw [markFirst]
    split
    · simp
    · simpa using ih

theorem map_markOne_eq_self (ns : List GNode) (dep : String)
    (h : ∀ m ∈ ns, m.name ≠ dep) :
    (ns.map fun n => if n.name = dep then { n with isDependency := true } else n) = ns := by
  induction ns with
  | nil => rfl
  | cons n ns ih =>
    rw [List.map_cons, if_neg (h n (List.mem_cons_self n ns)), ih]
    intro m hm
    exact h m (List.mem_cons_of_mem n hm)

theorem markFirst_eq_map (ns : List GNode) (dep : String)
    (h : (ns.map GNode.name).Nodup) :
    markFirst ns dep =
      ns.map fun n => if n.name = dep then { n with isDependency := true } else n := by
  induction ns with
  | nil => rfl
  | cons n ns ih =>
    rw [List.map_cons] at h
    rw [markFirst, List.map_cons]
    by_cases hn : n.name = dep
    · rw [if_pos hn, if_pos hn]
      congr 1
      refine (map_markOne_eq_self ns dep ?_).symm
      intro m hm hmd
      have hmem : m.name ∈ ns.map GNode.name := List.mem_map_of_mem GNode.name hm
      rw [hmd, ← hn] at hmem
      exact (List.nodup_cons.mp h).1 hmem
    · rw [if_neg hn, if_neg hn, ih (List.nodup_cons.mp h).2]

theorem map_name_markOne (ns : List GNode) (d : String) :
    ((ns.map fun n => if n.name = d then { n with isDependency := true } else n).map
        GNode.name) = ns.map GNode.name := by
  rw [List.map_map]
  refine List.map_congr_left fun n _ => ?_
  by_cases h : n.name = d <;> simp [h, Function.comp]

theorem markOne_markOne (d : String) (deps : List String) (n : GNode) :
    (fun m => if m.name ∈ deps then { m with isDependency := true } else m)
        (if n.name = d then { n with isDependency := true } else n) =
      (if n.name ∈ d :: deps then { n with isDependency := true } else n) := by
  by_cases h1 : n.name = d <;> by_cases h2 : n.name ∈ deps <;>
    simp [h1, h2, List.mem_cons]

theorem foldl_markFirst_eq_map (deps : List String) (ns : List GNode)
    (h : (ns.map GNode.name).Nodup) :
    deps.foldl markFirst ns =
      ns.map fun n => if n.name ∈ deps then { n with isDependency := true } else n := by
  induction deps generalizing ns with
  | nil =>
    simp only [List.foldl_nil, List.not_mem_nil, if_false]
    exact (List.map_id ns).symm
  | cons d deps ih =>
    rw [List.foldl_cons, markFirst_eq_map ns d h,
        ih _ (by rw [map_name_markOne]; exact h), List.map_map]
    exact List.map_congr_left fun n _ => markOne_markOne d deps n

/-! ### Characterization of the constructed graph -/

theorem graphBuilder_links (data : List Record) :
    (graphBuilder data).links = linksList data := by
  simp only [graphBuilder]
  rw [foldl_addLink_outer]
  simp

theorem graphBuilder_nodes (data : List Record) :
    (graphBuilder data).nodes =
      (nodesSet data).map fun name =>
        { name := name, color := "#0077cc", model_url := getModelUrl data name,
          isDependency := decide (name ∈ depsList data) } := by
  have hnodup :
      (((nodesSet data).map fun name =>
          ({ name := name, color := "#0077cc", model_url := getModelUrl data name,
             isDependency := false } : GNode)).map GNode.name).Nodup := by
    rw [List.map_map]
    have hid : (GNode.name ∘ fun name =>
        ({ name := name, color := "#0077cc", model_url := getModelUrl data name,
           isDependency := false } : GNode)) = fun name => name := rfl
    rw [hid]
    simpa using nodup_nodesSet data
  simp only [graphBuilder]
  rw [foldl_addLink_outer]
  simp only []
  rw [foldl_markFirst_eq_map _ _ hnodup, List.map_map]
  refine List.map_congr_left fun nm _ => ?_
  by_cases h : nm ∈ depsList data <;> simp [h, Function.comp]

theorem exists_node_of_mem_nodesSet (data : List Record) (nm : String)
    (h : nm ∈ nodesSet data) :
    ∃ n ∈ (graphBuilder data).nodes, n.name = nm := by
  rw [graphBuilder_nodes]
  exact ⟨_, List.mem_map_of_mem _ h, rfl⟩

theorem mem_depsList_iff_target (data : List Record) (t : String) :
    t ∈ depsList data ↔ ∃ l ∈ linksList data, l.target = t := by
  constructor
  · intro h
    obtain ⟨i, hi, hd⟩ := List.mem_flatMap.mp h
    exact ⟨⟨i.name, t⟩, List.mem_flatMap.mpr ⟨i, hi, List.mem_map_of_mem _ hd⟩, rfl⟩
  · rintro ⟨l, hl, rfl⟩
    obtain ⟨i, hi, hd⟩ := List.mem_flatMap.mp hl
    obtain ⟨d, hd', rfl⟩ := List.mem_map.mp hd
    exact List.mem_flatMap.mpr ⟨i, hi, hd'⟩

theorem linksList_endpoints (data : List Record) (l : GLink) (h : l ∈ linksList data) :
    l.source ∈ inputNames data ∧ l.target ∈ inputNames data := by
  obtain ⟨i, hi, hd⟩ := List.mem_flatMap.mp h
  obtain ⟨d, hd', rfl⟩ := List.mem_map.mp hd
  constructor
  · exact List.mem_flatMap.mpr ⟨i, hi, List.mem_cons_self _ _⟩
  · exact List.mem_flatMap.mpr ⟨i, hi, List.mem_cons_of_mem _ hd'⟩

/-! ### Claim theorems for the graph builder -/

/-- C1: in the graph built by `graphBuilder`, a node's `isDependency` flag
(the spec's `isDependencyTarget`) is true iff the node's name appears as the
`target` of at least one link in the constructed link list. -/
theorem graphBuilder_isDependency_iff_target (data : List Record) (n : GNode)
    (hn : n ∈ (graphBuilder data).nodes) :
    n.isDependency = true ↔ ∃ l ∈ (graphBuilder data).links, l.target = n.name := by
  rw [graphBuilder_nodes] at hn
  rw [graphBuilder_links]
  obtain ⟨nm, hnm, rfl⟩ := List.mem_map.mp hn
  simpa using mem_depsList_iff_target data nm

/-- Witness for C1 at the spec's example input. -/
theorem graphBuilder_isDependency_iff_target_witness :
    (⟨"B", "#0077cc", some "/BeSLighthouse/model_reportB", true⟩ : GNode) ∈
        (graphBuilder [⟨"A", ["B"]⟩, ⟨"B", []⟩]).nodes ∧
    ((⟨"B", "#0077cc", some "/BeSLighthouse/model_reportB", true⟩ : GNode).isDependency = true ↔
      ∃ l ∈ (graphBuilder [⟨"A", ["B"]⟩, ⟨"B", []⟩]).links,
        l.target = (⟨"B", "#0077cc", some "/BeSLighthouse/model_reportB", true⟩ : GNode).name) :=
  ⟨by decide, graphBuilder_isDependency_iff_target _ _ (by decide)⟩

/-- C2: every constructed link's `source` and `target` resolve to a node of
the output node set, and the link list carries exactly one entry per
`(record.name, dependency)` pair in traversal order, multiplicity
preserved. -/
theorem graphBuilder_links_resolve_and_faithful (data : List Record) :
    (∀ l ∈ (graphBuilder data).links,
        (∃ n ∈ (graphBuilder data).nodes, n.name = l.source) ∧
        (∃ n ∈ (graphBuilder data).nodes, n.name = l.target)) ∧
    (graphBuilder data).links =
      data.flatMap (fun item => item.dependencies.map fun dep => ⟨item.name, dep⟩) := by
  constructor
  · intro l hl
    rw [graphBuilder_links] at hl
    obtain ⟨hs, ht⟩ := linksList_endpoints data l hl
    exact ⟨exists_node_of_mem_nodesSet data _ ((mem_nodesSet data _).mpr hs),
           exists_node_of_mem_nodesSet data _ ((mem_nodesSet data _).mpr ht)⟩
  · rw [graphBuilder_links]
    rfl

/-- Witness for C2: the single link of a concrete graph resolves. -/
theorem graphBuilder_links_resolve_and_faithful_witness :
    (∃ n ∈ (graphBuilder [⟨"A", ["B"]⟩]).nodes, n.name = (⟨"A", "B"⟩ : GLink).source) ∧
    (∃ n ∈ (graphBuilder [⟨"A", ["B"]⟩]).nodes, n.name = (⟨"A", "B"⟩ : GLink).target) :=
  (graphBuilder_links_resolve_and_faithful [⟨"A", ["B"]⟩]).1 ⟨"A", "B"⟩ (by decide)

/-- C3: the output node set has exactly one node per distinct name of the
input (record names and dependency entries combined): its size is the number
of distinct such names, node names are duplicate-free, and a node with a
given name exists iff that name occurs in the input. -/
theorem graphBuilder_node_count (data : List Record) :
    (graphBuilder data).nodes.length = (inputNames data).dedup.length ∧
    ((graphBuilder data).nodes.map GNode.name).Nodup ∧
    ∀ s, (∃ n ∈ (graphBuilder data).nodes, n.name = s) ↔ s ∈ inputNames data := by
  have hperm : List.Perm (nodesSet data) (inputNames data).dedup := by
    rw [List.perm_ext_iff_of_nodup (nodup_nodesSet data) (List.nodup_dedup _)]
    intro a
    rw [mem_nodesSet, List.mem_dedup]
  refine ⟨?_, ?_, ?_⟩
  · rw [graphBuilder_nodes, List.length_map]
    exact hperm.length_eq
  · rw [graphBuilder_nodes, List.map_map]
    have hid : (GNode.name ∘ fun name =>
        ({ name := name, color := "#0077cc", model_url := getModelUrl data name,
           isDependency := decide (name ∈ depsList data) } : GNode)) = fun name => name := rfl
    rw [hid]
    simpa using nodup_nodesSet data
  · intro s
    constructor
    · rintro ⟨n, hn, rfl⟩
      rw [graphBuilder_nodes] at hn
      obtain ⟨nm, hnm, rfl⟩ := List.mem_map.mp hn
      exact (mem_nodesSet data nm).mp hnm
    · intro hs
      exact exists_node_of_mem_nodesSet data s ((mem_nodesSet data s).mpr hs)

/-- Witness for C3 at a concrete input with a duplicated name. -/
theorem graphBuilder_node_count_witness :
    (graphBuilder [⟨"A", ["B", "A"]⟩]).nodes.length =
        (inputNames [⟨"A", ["B", "A"]⟩]).dedup.length ∧
    ((∃ n ∈ (graphBuilder [⟨"A", ["B", "A"]⟩]).nodes, n.name = "B") ↔
      "B" ∈ inputNames [⟨"A", ["B", "A"]⟩]) :=
  ⟨(graphBuilder_node_count [⟨"A", ["B", "A"]⟩]).1,
   (graphBuilder_node_count [⟨"A", ["B", "A"]⟩]).2.2 "B"⟩

/-- C4: a node's `model_url` (the spec's `detailUrl`) is non-null iff some
input record's `name` equals the node's name; when non-null it equals the
fixed base path `"/BeSLighthouse/model_report"` concatenated with the node
name, and when no such record exists it is null. -/
theorem graphBuilder_model_url (data : List Record) (n : GNode)
    (hn : n ∈ (graphBuilder data).nodes) :
    (n.model_url ≠ none ↔ ∃ i ∈ data, i.name = n.name) ∧
    (∀ u, n.model_url = some u → u = "/BeSLighthouse/model_report" ++ n.name) ∧
    ((¬ ∃ i ∈ data, i.name = n.name) → n.model_url = none) := by
  rw [graphBuilder_nodes] at hn
  obtain ⟨nm, hnm, rfl⟩ := List.mem_map.mp hn
  show (getModelUrl data nm ≠ none ↔ ∃ i ∈ data, i.name = nm) ∧
    (∀ u, getModelUrl data nm = some u → u = "/BeSLighthouse/model_report" ++ nm) ∧
    ((¬ ∃ i ∈ data, i.name = nm) → getModelUrl data nm = none)
  cases hf : data.find? (fun item => item.name == nm) with
  | none =>
    have hno : ∀ i ∈ data, i.name ≠ nm := by
      intro i hi
      simpa using List.find?_eq_none.mp hf i hi
    have hmu : getModelUrl data nm = none := by
      simp only [getModelUrl, hf]
    rw [hmu]
    refine ⟨?_, ?_, fun _ => rfl⟩
    · constructor
      · intro h
        exact absurd rfl h
      · rintro ⟨i, hi, hname⟩
        exact absurd hname (hno i hi)
    · intro u hu
      simp at hu
  | some i =>
    have hi : i ∈ data := List.mem_of_find?_eq_some hf
    have hname : i.name = nm := by
      simpa using List.find?_some hf
    have hmu : getModelUrl data nm = some ("/BeSLighthouse/model_report" ++ nm) := by
      simp only [getModelUrl, hf]
    rw [hmu]
    refine ⟨?_, ?_, ?_⟩
    · constructor
      · intro _
        exact ⟨i, hi, hname⟩
      · intro _
        simp
    · intro u hu
      exact (Option.some.inj hu).symm
    · intro hno
      exact absurd ⟨i, hi, hname⟩ hno

/-- Witness for C4: the non-null branch at a concrete graph. -/
theorem graphBuilder_model_url_witness :
    "/BeSLighthouse/model_reportA" =
      "/BeSLighthouse/model_report" ++
        (⟨"A", "#0077cc", some "/BeSLighthouse/model_reportA", false⟩ : GNode).name :=
  (graphBuilder_model_url [⟨"A", ["B"]⟩]
      ⟨"A", "#0077cc", some "/BeSLighthouse/model_reportA", false⟩
      (by decide)).2.1 "/BeSLighthouse/model_reportA" rfl

/-! ### Click handling -/

/-- Truthiness of the JS value `d.model_url` (`null` or a string): `null` and
the empty string are falsy, any other string is truthy. -/
def jsTruthyStr : Option String → Bool
  | none => false
  | some s => !(s == "")

/-- Model of `handleNodeClick` of the source:
`if (d.model_url && !event.active) window.open("/BeSLighthouse/model_report/:" + d.name, "_blank")`.
The emitted navigation request is modelled as an `Option` carrying the opened
URL; `active` is the truthiness of `event.active`. -/
def handleNodeClick (active : Bool) (d : GNode) : Option String :=
  if jsTruthyStr d.model_url && !active then
    some ("/BeSLighthouse/model_report/:" ++ d.name)
  else none

theorem model_url_of_mem (data : List Record) (n : GNode)
    (hn : n ∈ (graphBuilder data).nodes) :
    n.model_url = getModelUrl data n.name := by
  rw [graphBuilder_nodes] at hn
  obtain ⟨nm, hnm, rfl⟩ := List.mem_map.mp hn
  rfl

theorem getModelUrl_cases (data : List Record) (nm : String) :
    getModelUrl data nm = none ∨
      getModelUrl data nm = some ("/BeSLighthouse/model_report" ++ nm) := by
  unfold getModelUrl
  cases data.find? (fun item => item.name == nm) <;> simp

theorem modelUrl_string_ne_empty (nm : String) :
    ("/BeSLighthouse/model_report" ++ nm) ≠ "" := by
  intro h
  have hlen := congrArg String.length h
  rw [String.length_append, String.length_empty] at hlen
  have hbase : ("/BeSLighthouse/model_report" : String).length = 27 := rfl
  rw [hbase] at hlen
  omega

/-- C5 counterexample: node `A` of the graph built from
`[{name:"A", dependencies:["B"]}]` has
`model_url = "/BeSLighthouse/model_reportA"`, yet the qualifying click emits
`"/BeSLighthouse/model_report/:A"`, which is not equal to its `model_url`. -/
theorem handleNodeClick_counterexample :
    (⟨"A", "#0077cc", some "/BeSLighthouse/model_reportA", false⟩ : GNode) ∈
        (graphBuilder [⟨"A", ["B"]⟩]).nodes ∧
    handleNodeClick false ⟨"A", "#0077cc", some "/BeSLighthouse/model_reportA", false⟩ =
      some "/BeSLighthouse/model_report/:A" ∧
    (⟨"A", "#0077cc", some "/BeSLighthouse/model_reportA", false⟩ : GNode).model_url =
      some "/BeSLighthouse/model_reportA" ∧
    ("/BeSLighthouse/model_report/:A" : String) ≠ "/BeSLighthouse/model_reportA" := by
  decide

/-- C5 amended: a click on a constructed node whose `model_url` is non-null,
while not mid-drag, emits exactly one navigation request, whose URL is the
fixed prefix `"/BeSLighthouse/model_report/:"` concatenated with the node's
name (which differs from the node's `model_url`); a click with null
`model_url`, or while dragging, emits nothing. -/
theorem handleNodeClick_spec (data : List Record) (n : GNode)
    (hn : n ∈ (graphBuilder data).nodes) :
    (n.model_url ≠ none →
      handleNodeClick false n = some ("/BeSLighthouse/model_report/:" ++ n.name)) ∧
    (n.model_url = none → ∀ a, handleNodeClick a n = none) ∧
    (∀ a, a = true → handleNodeClick a n = none) := by
  have hmu := model_url_of_mem data n hn
  refine ⟨?_, ?_, ?_⟩
  · intro hne
    rcases getModelUrl_cases data n.name with h0 | h1
    · rw [hmu, h0] at hne
      exact absurd rfl hne
    · have hb : (("/BeSLighthouse/model_report" ++ n.name) == "") = false := by
        rw [beq_eq_false_iff_ne]
        exact modelUrl_string_ne_empty n.name
      rw [handleNodeClick, hmu, h1]
      simp [jsTruthyStr, hb]
  · intro h0 a
    simp [handleNodeClick, h0, jsTruthyStr]
  · rintro a rfl
    simp [handleNodeClick]

/-- Witness for the amended C5 at a concrete node. -/
theorem handleNodeClick_spec_witness :
    handleNodeClick false
        (⟨"A", "#0077cc", some "/BeSLighthouse/model_reportA", false⟩ : GNode) =
      some ("/BeSLighthouse/model_report/:" ++
        (⟨"A", "#0077cc", some "/BeSLighthouse/model_reportA", false⟩ : GNode).name) :=
  (handleNodeClick_spec [⟨"A", ["B"]⟩]
      ⟨"A", "#0077cc", some "/BeSLighthouse/model_reportA", false⟩ (by decide)).1 (by decide)

/-! ### Raw input model: missing fields and the fetch pipeline -/

/-- A raw JSON record as the code actually receives it: either field may be
absent (`none` models JS `undefined` for `name`, and a missing or non-array
value for `dependencies`). -/
structure RawRecord where
  name : Option String
  dependencies : Option (List String)
deriving DecidableEq, Repr

/-- A node built from raw data: its name may be the JS `undefined`. -/
structure RawNode where
  name : Option String
  color : String
  model_url : Option String
  isDependency : Bool
deriving DecidableEq, Repr

/-- A link built from raw data: `source` is `item.name` (possibly
`undefined`), `target` a dependency string. -/
structure RawLink where
  source : Option String
  target : String
deriving DecidableEq, Repr

/-- Raw graph output. -/
structure RawGraph where
  nodes : List RawNode
  links : List RawLink
deriving DecidableEq, Repr

/-- JS string coercion of a possibly-undefined value, as in
`url + nodeName`: `undefined` stringifies to `"undefined"`. -/
def optJsStr : Option String → String
  | none => "undefined"
  | some s => s

/-- Model of `Set.add` over possibly-undefined members (a JS `Set` can hold
`undefined`). -/
def insertUniqO (s : List (Option String)) (x : Option String) : List (Option String) :=
  if x ∈ s then s else s ++ [x]

/-- The first `data.forEach` pass on raw data: `nodesSet.add(item.name)`
succeeds even when `name` is absent, but `item.dependencies.forEach` throws a
`TypeError` when `dependencies` is missing or not an array. -/
def collectNames : List RawRecord → List (Option String) → Except String (List (Option String))
  | [], s => .ok s
  | item :: rest, s =>
    match item.dependencies with
    | none => .error "TypeError: item.dependencies is undefined"
    | some deps =>
        collectNames rest (deps.foldl (fun acc d => insertUniqO acc (some d)) (insertUniqO s item.name))

/-- Model of `getModelUrl` on raw data: `data.find(item => item.name === nodeName)`
with strict equality on possibly-undefined names, then `url + nodeName`. -/
def getModelUrlRaw (data : List RawRecord) (nodeName : Option String) : Option String :=
  match data.find? (fun item => item.name == nodeName) with
  | some _ => some ("/BeSLighthouse/model_report" ++ optJsStr nodeName)
  | none => none

/-- The `isDependency` marking on raw nodes (`node.name === dep` is `false`
whenever `node.name` is `undefined`). -/
def markFirstRaw : List RawNode → String → List RawNode
  | [], _ => []
  | n :: ns, dep =>
      if n.name = some dep then { n with isDependency := true } :: ns
      else n :: markFirstRaw ns dep

/-- The second `data.forEach` pass on raw data: push one link per
`(item.name, dep)` pair and mark dependency targets; accessing
`item.dependencies` throws the same `TypeError` when it is missing. -/
def buildLinksRaw : List RawRecord → List RawLink × List RawNode →
    Except String (List RawLink × List RawNode)
  | [], st => .ok st
  | item :: rest, st =>
    match item.dependencies with
    | none => .error "TypeError: item.dependencies is undefined"
    | some deps =>
        buildLinksRaw rest
          (deps.foldl (fun st dep => (st.1 ++ [⟨item.name, dep⟩], markFirstRaw st.2 dep)) st)

/-- The whole construction on raw data, all-or-nothing: any thrown
`TypeError` aborts it with no partial graph (the promise chain lands in the
`catch` handler). -/
def graphBuilderRaw (data : List RawRecord) : Except String RawGraph :=
  match collectNames data [] with
  | .error e => .error e
  | .ok names =>
    let nodes0 : List RawNode := names.map fun nm =>
      { name := nm, color := "#0077cc", model_url := getModelUrlRaw data nm,
        isDependency := false }
    match buildLinksRaw data ([], nodes0) with
    | .error e => .error e
    | .ok st => .ok { nodes := st.2, links := st.1 }

example :
    graphBuilderRaw [⟨some "A", some ["B"]⟩, ⟨some "B", some []⟩] =
      .ok { nodes := [⟨some "A", "#0077cc", some "/BeSLighthouse/model_reportA", false⟩,
                      ⟨some "B", "#0077cc", some "/BeSLighthouse/model_reportB", true⟩],
            links := [⟨some "A", "B"⟩] } := by rfl

example :
    graphBuilderRaw [⟨some "A", none⟩] =
      .error "TypeError: item.dependencies is undefined" := by rfl

/-- C6 counterexample: the record `{dependencies: []}` with no `name` field
is malformed per the claim, yet construction succeeds, producing a node with
an undefined name (and even a `model_url`, since `find` matches the
undefined name). -/
theorem graphBuilderRaw_missing_name_counterexample :
    graphBuilderRaw [⟨none, some []⟩] =
      .ok { nodes := [⟨none, "#0077cc", some "/BeSLighthouse/model_reportundefined", false⟩],
            links := [] } ∧
    (graphBuilderRaw [⟨none, some []⟩]).isOk = true :=
  ⟨rfl, rfl⟩

theorem collectNames_error (data : List RawRecord) (s : List (Option String))
    (h : ∃ i ∈ data, i.dependencies = none) :
    collectNames data s = .error "TypeError: item.dependencies is undefined" := by
  induction data generalizing s with
  | nil =>
    obtain ⟨i, hi, _⟩ := h
    exact absurd hi (List.not_mem_nil i)
  | cons r rest ih =>
    obtain ⟨i, hi, hd⟩ := h
    cases hr : r.dependencies with
    | none => simp [collectNames, hr]
    | some deps =>
      have hrest : ∃ i ∈ rest, i.dependencies = none := by
        rcases List.mem_cons.mp hi with rfl | hmem
        · rw [hr] at hd
          exact absurd hd (by simp)
        · exact ⟨i, hmem, hd⟩
      simp only [collectNames, hr]
      exact ih _ hrest

/-- C6 amended: a record whose `dependencies` field is missing or not an
array makes the whole construction fail with the thrown `TypeError`
(all-or-nothing: the error carries no partial graph); a record that merely
lacks its `name` field does not fail — it contributes a node whose name is
undefined. -/
theorem graphBuilderRaw_missing_deps_fails (data : List RawRecord)
    (h : ∃ i ∈ data, i.dependencies = none) :
    graphBuilderRaw data = .error "TypeError: item.dependencies is undefined" := by
  simp [graphBuilderRaw, collectNames_error data [] h]

/-- Witness for the amended C6 at the spec's example `[{"name":"A"}]`. -/
theorem graphBuilderRaw_missing_deps_fails_witness :
    graphBuilderRaw [⟨some "A", none⟩] =
      .error "TypeError: item.dependencies is undefined" :=
  graphBuilderRaw_missing_deps_fails [⟨some "A", none⟩] ⟨⟨some "A", none⟩, by decide, rfl⟩

/-- An HTTP response as the fetch handler observes it: the status, and the
JSON parse outcome of the body (`none` when `response.json()` rejects). -/
structure HttpResponse where
  status : Nat
  body : Option (List RawRecord)
deriving DecidableEq, Repr

/-- Modelled from the spec: `response.ok` of the Fetch API (behaviour of the
browser collaborator, not repository code) is true exactly for statuses
200–299. -/
def respOk (r : HttpResponse) : Bool :=
  200 ≤ r.status && r.status < 300

/-- The fetch handler of the source: when `!response.ok` throw
`Failed to fetch data. Status: ${status}`; otherwise parse the body, a parse
rejection being the browser's SyntaxError. -/
def processResponse (r : HttpResponse) : Except String (List RawRecord) :=
  if respOk r then
    match r.body with
    | some d => .ok d
    | none => .error "SyntaxError: JSON parse failure"
  else .error ("Failed to fetch data. Status: " ++ toString r.status)

/-- The whole fetch-then-build pipeline: any error bypasses graph
construction and lands in the `catch` handler. -/
def fetchAndBuild (r : HttpResponse) : Except String RawGraph :=
  match processResponse r with
  | .error e => .error e
  | .ok d => graphBuilderRaw d

/-- C7 counterexample: a 204 response is a non-200 HTTP response, yet
`response.ok` holds, so the operation succeeds and builds a graph instead of
failing with an error. -/
theorem fetchAndBuild_counterexample :
    fetchAndBuild ⟨204, some [⟨some "A", some []⟩]⟩ =
      .ok { nodes := [⟨some "A", "#0077cc", some "/BeSLighthouse/model_reportA", false⟩],
            links := [] } ∧
    (204 : Nat) ≠ 200 :=
  ⟨rfl, by decide⟩

/-- C7 amended: for a response that is not ok (status outside 200–299) or
whose body fails JSON parsing, the pipeline fails with a message carrying
the status code, respectively a parse diagnostic, and no graph is built from
that response. -/
theorem fetchAndBuild_error (r : HttpResponse)
    (h : respOk r = false ∨ r.body = none) :
    ∃ msg, fetchAndBuild r = .error msg ∧
      (respOk r = false → msg = "Failed to fetch data. Status: " ++ toString r.status) ∧
      (respOk r = true → msg = "SyntaxError: JSON parse failure") ∧
      ∀ g, fetchAndBuild r ≠ .ok g := by
  cases hok : respOk r with
  | false =>
    have he : fetchAndBuild r =
        .error ("Failed to fetch data. Status: " ++ toString r.status) := by
      simp [fetchAndBuild, processResponse, hok]
    refine ⟨_, he, fun _ => rfl, ?_, ?_⟩
    · intro hc
      exact Bool.noConfusion hc
    · intro g hg
      rw [he] at hg
      exact Except.noConfusion hg
  | true =>
    have hb : r.body = none := by
      rcases h with h' | h'
      · rw [hok] at h'
        exact Bool.noConfusion h'
      · exact h'
    have he : fetchAndBuild r = .error "SyntaxError: JSON parse failure" := by
      simp [fetchAndBuild, processResponse, hok, hb]
    refine ⟨_, he, ?_, fun _ => rfl, ?_⟩
    · intro hc
      exact Bool.noConfusion hc
    · intro g hg
      rw [he] at hg
      exact Except.noConfusion hg

/-- Witness for the amended C7 at the spec's HTTP 500 example. -/
theorem fetchAndBuild_error_witness :
    ∃ msg, fetchAndBuild ⟨500, some []⟩ = .error msg ∧
      (respOk ⟨500, some []⟩ = false →
        msg = "Failed to fetch data. Status: " ++ toString (500 : Nat)) ∧
      (respOk ⟨500, some []⟩ = true → msg = "SyntaxError: JSON parse failure") ∧
      ∀ g, fetchAndBuild ⟨500, some []⟩ ≠ .ok g :=
  fetchAndBuild_error ⟨500, some []⟩ (Or.inl (by decide))

/-! ### Force simulation, drag interaction and rendering -/

/-- A simulation node: position, velocity and the d3 pinning fields
`fx`/`fy` (`null` when the node moves freely). -/
structure SimNode where
  x : ℚ
  y : ℚ
  vx : ℚ
  vy : ℚ
  fx : Option ℚ
  fy : Option ℚ
deriving DecidableEq, Repr

/-- Modelled from the spec: one per-node integration step of the
ForceLayoutEngine (the d3-force library, which is not repository code).
`ax`/`ay` is the accumulated force contribution of this tick; on a pinned
axis the node skips free integration and has `position := pinned` with zero
velocity. -/
def integrateNode (ax ay : ℚ) (n : SimNode) : SimNode :=
  let px : ℚ × ℚ :=
    match n.fx with
    | some p => (p, 0)
    | none => (n.x + (n.vx + ax), n.vx + ax)
  let py : ℚ × ℚ :=
    match n.fy with
    | some p => (p, 0)
    | none => (n.y + (n.vy + ay), n.vy + ay)
  { x := px.1, y := py.1, vx := px.2, vy := py.2, fx := n.fx, fy := n.fy }

/-- Model of `dragstarted` of the source: pin the node at its current position. -/
def dragstarted (n : SimNode) : SimNode :=
  { n with fx := some n.x, fy := some n.y }

/-- Model of `dragged` of the source: the pinned coordinate follows the pointer
(`d.fx = event.x; d.fy = event.y`). -/
def dragged (ex ey : ℚ) (n : SimNode) : SimNode :=
  { n with fx := some ex, fy := some ey }

/-- Model of `dragended` of the source: release the pin (`d.fx = null; d.fy = null`). -/
def dragended (n : SimNode) : SimNode :=
  { n with fx := none, fy := none }

/-- Iterated simulation ticks on one node, one arbitrary accumulated force
pair per tick. -/
def applyTicks (forces : List (ℚ × ℚ)) (n : SimNode) : SimNode :=
  forces.foldl (fun n f => integrateNode f.1 f.2 n) n

theorem integrateNode_fx (ax ay : ℚ) (n : SimNode) :
    (integrateNode ax ay n).fx = n.fx ∧ (integrateNode ax ay n).fy = n.fy := by
  simp [integrateNode]

theorem integrateNode_pinned (ax ay : ℚ) (n : SimNode) (px py : ℚ)
    (hx : n.fx = some px) (hy : n.fy = some py) :
    (integrateNode ax ay n).x = px ∧ (integrateNode ax ay n).y = py := by
  simp [integrateNode, hx, hy]

theorem applyTicks_pinned (forces : List (ℚ × ℚ)) (m : SimNode) (px py : ℚ)
    (hx : m.fx = some px) (hy : m.fy = some py) (h : forces ≠ []) :
    (applyTicks forces m).x = px ∧ (applyTicks forces m).y = py := by
  induction forces generalizing m with
  | nil => exact absurd rfl h
  | cons f fs ih =>
    have hstep : applyTicks (f :: fs) m = applyTicks fs (integrateNode f.1 f.2 m) := rfl
    by_cases hfs : fs = []
    · subst hfs
      rw [hstep]
      exact integrateNode_pinned f.1 f.2 m px py hx hy
    · rw [hstep]
      refine ih (integrateNode f.1 f.2 m) ?_ ?_ hfs
      · rw [(integrateNode_fx f.1 f.2 m).1, hx]
      · rw [(integrateNode_fx f.1 f.2 m).2, hy]

/-- C8: a drag-move pins the node at the pointer coordinate, and after any
number (at least one) of subsequent simulation ticks, under arbitrary
accumulated forces, the node's position equals that pointer coordinate
exactly — no drift. -/
theorem dragged_pins_position (n : SimNode) (ex ey : ℚ) (forces : List (ℚ × ℚ))
    (h : forces ≠ []) :
    (dragged ex ey n).fx = some ex ∧ (dragged ex ey n).fy = some ey ∧
    (applyTicks forces (dragged ex ey n)).x = ex ∧
    (applyTicks forces (dragged ex ey n)).y = ey := by
  refine ⟨rfl, rfl, ?_, ?_⟩
  · exact (applyTicks_pinned forces (dragged ex ey n) ex ey rfl rfl h).1
  · exact (applyTicks_pinned forces (dragged ex ey n) ex ey rfl rfl h).2

/-- Witness for C8 at a concrete node, pointer and force. -/
theorem dragged_pins_position_witness :
    (applyTicks [(1, 2)] (dragged 3 4 ⟨0, 0, 0, 0, none, none⟩)).x = 3 ∧
    (applyTicks [(1, 2)] (dragged 3 4 ⟨0, 0, 0, 0, none, none⟩)).y = 4 :=
  ⟨(dragged_pins_position ⟨0, 0, 0, 0, none, none⟩ 3 4 [(1, 2)]
      (List.cons_ne_nil _ _)).2.2.1,
   (dragged_pins_position ⟨0, 0, 0, 0, none, none⟩ 3 4 [(1, 2)]
      (List.cons_ne_nil _ _)).2.2.2⟩

/-- Modelled from the spec: the engine's stopping floor for alpha (default
near 0.001). -/
def alphaMin : ℚ := 1 / 1000

/-- Modelled from the spec: the alpha sequence from a reference alpha of 1
with no re-energizing input — geometric decay by a fixed ratio `r` each tick
(d3's `alpha += (alphaTarget - alpha) * alphaDecay` with target 0). -/
def alphaSeq (r : ℚ) : ℕ → ℚ
  | 0 => 1
  | n + 1 => alphaSeq r n * r

/-- Simulation state: the scalar energy plus the node list. -/
structure SimState where
  alpha : ℚ
  nodes : List SimNode
deriving DecidableEq, Repr

/-- Modelled from the spec: one engine step — once alpha is below the floor
the engine idles (no position updates at all); otherwise decay alpha and
integrate every node under the accumulated forces `f`. -/
def stepSim (r : ℚ) (f : SimNode → ℚ × ℚ) (s : SimState) : SimState :=
  if s.alpha < alphaMin then s
  else { alpha := s.alpha * r,
         nodes := s.nodes.map fun n => integrateNode (f n).1 (f n).2 n }

/-- C9: with decay ratio `r ∈ [0,1)` and no re-energizing input, alpha is
monotonically non-increasing tick over tick, falls below the stopping floor
after a bounded number of ticks, and once below the floor the engine
performs no further updates. -/
theorem alpha_decay (r : ℚ) (h0 : 0 ≤ r) (h1 : r < 1) :
    (∀ n, alphaSeq r (n + 1) ≤ alphaSeq r n) ∧
    (∃ N, alphaSeq r N < alphaMin) ∧
    (∀ f s, s.alpha < alphaMin → stepSim r f s = s) := by
  have hpow : ∀ n, alphaSeq r n = r ^ n := by
    intro n
    induction n with
    | zero => rfl
    | succ n ih => rw [alphaSeq, ih, pow_succ]
  refine ⟨?_, ?_, ?_⟩
  · intro n
    rw [hpow, hpow, pow_succ]
    have hrn : 0 ≤ r ^ n := pow_nonneg h0 n
    calc r ^ n * r ≤ r ^ n * 1 := mul_le_mul_of_nonneg_left h1.le hrn
      _ = r ^ n := mul_one _
  · obtain ⟨N, hN⟩ :=
      exists_pow_lt_of_lt_one (show (0 : ℚ) < alphaMin by norm_num [alphaMin]) h1
    exact ⟨N, by rw [hpow]; exact hN⟩
  · intro f s hs
    simp [stepSim, hs]

/-- Witness for C9 with ratio 1/2: one concrete decay step, the bounded
floor-reaching, and the idle step at a concrete resting state. -/
theorem alpha_decay_witness :
    alphaSeq (1 / 2) 1 ≤ alphaSeq (1 / 2) 0 ∧
    (∃ N, alphaSeq (1 / 2) N < alphaMin) ∧
    stepSim (1 / 2) (fun _ => (0, 0)) ⟨0, []⟩ = ⟨0, []⟩ :=
  ⟨(alpha_decay (1 / 2) (by norm_num) (by norm_num)).1 0,
   (alpha_decay (1 / 2) (by norm_num) (by norm_num)).2.1,
   (alpha_decay (1 / 2) (by norm_num) (by norm_num)).2.2 (fun _ => (0, 0)) ⟨0, []⟩
     (by norm_num [alphaMin])⟩

/-- A datum as the `ticked` render callback reads it: the simulated
coordinate may still be unassigned (JS `undefined`). -/
structure RenderDatum where
  x : Option ℚ
  y : Option ℚ
deriving DecidableEq, Repr

/-- JS `v || 0` on a possibly-undefined number: `undefined` and `0` are
falsy and yield the default `0`; any other number is returned itself. -/
def jsOrZero (v : Option ℚ) : ℚ :=
  match v with
  | none => 0
  | some q => if q = 0 then 0 else q

/-- The node part of the `ticked` callback of the source:
`cx = d.x || 0`, `cy = d.y || 0`. -/
def tickedNodeCoords (d : RenderDatum) : ℚ × ℚ :=
  (jsOrZero d.x, jsOrZero d.y)

/-- The link part of the `ticked` callback of the source:
`x1/y1/x2/y2` from `source.x || 0` etc. -/
def tickedLinkCoords (s t : RenderDatum) : ℚ × ℚ × ℚ × ℚ :=
  (jsOrZero s.x, jsOrZero s.y, jsOrZero t.x, jsOrZero t.y)

/-- C10: every rendered coordinate equals the simulated value when that
value is truthy and 0 otherwise; an unassigned coordinate renders at the
origin; a genuine coordinate of exactly 0 renders identically to an
unassigned one; link endpoints go through the same rule. -/
theorem ticked_coords (d : RenderDatum) :
    (∀ v, d.x = some v → v ≠ 0 → (tickedNodeCoords d).1 = v) ∧
    (∀ v, d.y = some v → v ≠ 0 → (tickedNodeCoords d).2 = v) ∧
    (d.x = none → (tickedNodeCoords d).1 = 0) ∧
    (d.x = some 0 → (tickedNodeCoords d).1 = 0) ∧
    tickedNodeCoords ⟨some 0, some 0⟩ = tickedNodeCoords ⟨none, none⟩ ∧
    ∀ t, tickedLinkCoords d t =
      ((tickedNodeCoords d).1, (tickedNodeCoords d).2,
       (tickedNodeCoords t).1, (tickedNodeCoords t).2) := by
  refine ⟨?_, ?_, ?_, ?_, ?_, fun t => rfl⟩
  · intro v hv hnv
    simp [tickedNodeCoords, jsOrZero, hv, hnv]
  · intro v hv hnv
    simp [tickedNodeCoords, jsOrZero, hv, hnv]
  · intro hv
    simp [tickedNodeCoords, jsOrZero, hv]
  · intro hv
    simp [tickedNodeCoords, jsOrZero, hv]
  · simp [tickedNodeCoords, jsOrZero]

/-- Witness for C10 at concrete coordinates. -/
theorem ticked_coords_witness :
    (tickedNodeCoords ⟨some 5, some 0⟩).1 = 5 ∧
    (tickedNodeCoords ⟨none, none⟩).1 = 0 ∧
    (tickedNodeCoords ⟨some 0, some 0⟩).1 = 0 :=
  ⟨(ticked_coords ⟨some 5, some 0⟩).1 5 rfl (by norm_num),
   (ticked_coords ⟨none, none⟩).2.2.1 rfl,
   (ticked_coords ⟨some 0, some 0⟩).2.2.2.1 rfl⟩
